import Mathlib

/-!
Shallow embedding of `paperless_asn_qr_codes/avery_labels.py`.

The geometry lives in `AveryLabel.topLeft`, pagination in
`AveryLabel.advance` / `AveryLabel.close`, and the draw loop in
`AveryLabel.render` / `AveryLabel.render_iterator`.  The reportlab
canvas is modelled as an operation sink (`Canvas`) that records every
primitive drawing call in order (`trace`) and groups them into pages at
each `showPage` call (`pages` / `current`).  Real-number quantities are
modelled as rationals.
-/

namespace AveryLabels

/-- Rational model of reportlab's `mm` unit: 72 / 25.4 points. -/
def mmQ : ℚ := 72 / (254 / 10)

/-- Rational model of reportlab's `inch` unit: 72 points. -/
def inchQ : ℚ := 72

/-- Letter page size in points, as in `reportlab.lib.pagesizes.LETTER`. -/
def LETTER : ℚ × ℚ := (612, 792)

/-- A4 page size in points (210 mm x 297 mm), as in `reportlab.lib.pagesizes.A4`. -/
def A4 : ℚ × ℚ := (210 * mmQ, 297 * mmQ)

/-- Class for modeling label info (the `LabelInfo` dataclass). -/
structure LabelInfo where
  labels_horizontal : ℕ
  labels_vertical : ℕ
  label_size : ℚ × ℚ
  gutter_size : ℚ × ℚ
  margin : ℚ × ℚ
  pagesize : ℚ × ℚ
  radius : ℚ
deriving DecidableEq

/-- Catalog entry "royalgreen1660". -/
def royalgreen1660 : LabelInfo :=
  { labels_horizontal := 7
    labels_vertical := 22
    label_size := ((254 / 10) * mmQ, (952 / 100) * mmQ)
    gutter_size := ((25 / 10) * mmQ, (245 / 100) * mmQ)
    margin := ((1155 / 100) * mmQ, (873 / 100) * mmQ)
    radius := 3
    pagesize := LETTER }

/-- Catalog entry "averyL4731". -/
def averyL4731 : LabelInfo :=
  { labels_horizontal := 7
    labels_vertical := 27
    label_size := ((254 / 10) * mmQ, 10 * mmQ)
    gutter_size := ((25 / 10) * mmQ, 0)
    margin := (9 * mmQ, (135 / 10) * mmQ)
    radius := 4
    pagesize := A4 }

/-- Catalog entry "avery5160" (2.6 x 1 address labels). -/
def avery5160 : LabelInfo :=
  { labels_horizontal := 3
    labels_vertical := 10
    label_size := (187, 72)
    gutter_size := (11, 0)
    margin := (14, 36)
    radius := 0
    pagesize := LETTER }

/-- Catalog entry "avery5161". -/
def avery5161 : LabelInfo :=
  { labels_horizontal := 2
    labels_vertical := 10
    label_size := (288, 72)
    gutter_size := (0, 0)
    margin := (18, 36)
    radius := 0
    pagesize := LETTER }

/-- Catalog entry "avery5163" (4 x 2 address labels). -/
def avery5163 : LabelInfo :=
  { labels_horizontal := 2
    labels_vertical := 5
    label_size := (288, 144)
    gutter_size := (0, 0)
    margin := (18, 36)
    radius := 0
    pagesize := LETTER }

/-- Catalog entry "avery5167" (1.75 x 0.5 return address labels). -/
def avery5167 : LabelInfo :=
  { labels_horizontal := 4
    labels_vertical := 20
    label_size := ((175 / 100) * inchQ, (5 / 10) * inchQ)
    gutter_size := ((3 / 10) * inchQ, 0)
    margin := ((3 / 10) * inchQ, (5 / 10) * inchQ)
    radius := 0
    pagesize := LETTER }

/-- Catalog entry "avery5371" (3.5 x 2 business cards). -/
def avery5371 : LabelInfo :=
  { labels_horizontal := 2
    labels_vertical := 5
    label_size := (252, 144)
    gutter_size := (0, 0)
    margin := (54, 36)
    radius := 0
    pagesize := LETTER }

/-- The `labelInfo` template catalog: name-keyed lookup, `none` models a
    `KeyError` on an unknown key. -/
def labelInfo : String → Option LabelInfo
  | "royalgreen1660" => some royalgreen1660
  | "averyL4731" => some averyL4731
  | "avery5160" => some avery5160
  | "avery5161" => some avery5161
  | "avery5163" => some avery5163
  | "avery5167" => some avery5167
  | "avery5371" => some avery5371
  | _ => none

/-- Module-level constant `RETURN_ADDRESS`. -/
def RETURN_ADDRESS : ℕ := 5167

/-- Module-level constant `BUSINESS_CARDS`. -/
def BUSINESS_CARDS : ℕ := 5371

/-- One primitive call on the reportlab canvas.  `draw` is a generic
    content operation that a caller-supplied callback may emit. -/
inductive CanvasOp where
  | saveState : CanvasOp
  | restoreState : CanvasOp
  | translate (x y : ℚ) : CanvasOp
  | setLineWidth (w : ℚ) : CanvasOp
  | roundRect (x y w h r : ℚ) : CanvasOp
  | doForm (name : String) : CanvasOp
  | setPageCompression (n : ℕ) : CanvasOp
  | setLineJoin (n : ℕ) : CanvasOp
  | setLineCap (n : ℕ) : CanvasOp
  | showPage : CanvasOp
  | draw (tag : ℕ) : CanvasOp
deriving DecidableEq

/-- The output sink.  `trace` is the chronological list of every call
    issued on the canvas; `pages` collects the operations of each page
    finalized by `showPage`; `current` holds the operations issued since
    the last page break; `saved` records that `save` was called. -/
structure Canvas where
  pages : List (List CanvasOp)
  current : List CanvasOp
  trace : List CanvasOp
  saved : Bool
deriving DecidableEq

/-- Issue one primitive drawing call on the canvas. -/
def Canvas.emit (cv : Canvas) (op : CanvasOp) : Canvas :=
  { cv with current := cv.current ++ [op], trace := cv.trace ++ [op] }

/-- The canvas `showPage` call: finalizes the current page. -/
def Canvas.endPage (cv : Canvas) : Canvas :=
  { cv with
    pages := cv.pages ++ [cv.current]
    current := []
    trace := cv.trace ++ [CanvasOp.showPage] }

/-- Renderer state: the fields set by `AveryLabel.__init__` (the open
    canvas handle is modelled separately as an explicit `Canvas` value). -/
structure AveryLabel where
  across : ℕ
  down : ℕ
  size : ℚ × ℚ
  labelsep : ℚ × ℚ
  gutter : ℚ
  margins : ℚ × ℚ
  topDown : Bool
  debug : Bool
  radius : ℚ
  pagesize : ℚ × ℚ
  position : ℕ
deriving DecidableEq

/-- Body of `AveryLabel.__init__` after the successful catalog lookup
    (no keyword overrides). -/
def AveryLabel.fromInfo (data : LabelInfo) (debug : Bool) : AveryLabel :=
  { across := data.labels_horizontal
    down := data.labels_vertical
    size := data.label_size
    labelsep := (data.label_size.1 + data.gutter_size.1, data.label_size.2)
    gutter := data.gutter_size.2
    margins := data.margin
    topDown := true
    debug := debug
    radius := data.radius
    pagesize := data.pagesize
    position := 0 }

/-- The keyword-override mechanism `self.__dict__.update(kwargs)` applied
    to the single documented override, the `topDown` scan-order flag. -/
def AveryLabel.setTopDown (l : AveryLabel) (td : Bool) : AveryLabel :=
  { l with topDown := td }

/-- Full `AveryLabel.__init__`: catalog lookup then field assembly; an
    unknown name raises `KeyError(label)`, modelled as `Except.error`. -/
def mkAveryLabel (label : String) (debug : Bool) : Except String AveryLabel :=
  match labelInfo label with
  | none => Except.error label
  | some data => Except.ok (AveryLabel.fromInfo data debug)

/-- The `AveryLabel.open` method: creates the canvas for the output file
    and issues the initial configuration calls. -/
def AveryLabel.openCanvas (l : AveryLabel) : Canvas :=
  let cv : Canvas := { pages := [], current := [], trace := [], saved := false }
  let cv := if l.debug then cv.emit (CanvasOp.setPageCompression 0) else cv
  (cv.emit (CanvasOp.setLineJoin 1)).emit (CanvasOp.setLineCap 1)

/-- The `AveryLabel.topLeft` method on the default path (`x=None`,
    `y=None` with `x` taken from `self.position` at the call sites, here
    passed explicitly as `pos`).  `divmod` is quotient-then-remainder. -/
def AveryLabel.topLeft (l : AveryLabel) (pos : ℕ) : ℚ × ℚ :=
  let p := if l.topDown then (pos / l.down, pos % l.down) else (pos % l.across, pos / l.across)
  (l.margins.1 + (p.1 : ℚ) * l.labelsep.1,
   l.pagesize.2 - l.margins.2 - (p.2 : ℚ) * l.gutter - ((p.2 : ℚ) + 1) * l.labelsep.2)

/-- The `AveryLabel.advance` method: increments the cursor and ends the
    page when the grid capacity `across * down` is reached. -/
def AveryLabel.advance (l : AveryLabel) (cv : Canvas) : AveryLabel × Canvas :=
  let p := l.position + 1
  if p = l.across * l.down then ({ l with position := 0 }, cv.endPage)
  else ({ l with position := p }, cv)

/-- The `AveryLabel.close` method: ends the current page when it holds at
    least one label (`if self.position:`), then saves the document.  The
    Python code also drops the canvas reference, which has no observable
    counterpart here. -/
def AveryLabel.close (l : AveryLabel) (cv : Canvas) : Canvas :=
  let cv := if l.position ≠ 0 then cv.endPage else cv
  { cv with saved := true }

/-- Result of a content callback: the operations it draws, or a raised
    exception. -/
inductive CbResult where
  | ok (ops : List CanvasOp) : CbResult
  | raises : CbResult

/-- The polymorphic `thing` argument of `render`: a callable, a form name
    string, or any other value (rejected by the assert). -/
inductive Thing where
  | callback (f : ℚ → ℚ → CbResult) : Thing
  | form (name : String) : Thing
  | invalid : Thing

/-- The check `callable(thing) or isinstance(thing, str)`. -/
def Thing.valid : Thing → Bool
  | Thing.callback _ => true
  | Thing.form _ => true
  | Thing.invalid => false

/-- Exceptions the render loop can raise. -/
inductive PyErr where
  | assertionError : PyErr
  | contentError : PyErr
deriving DecidableEq

/-- Outcome of a render call: the exception raised (if any) and the
    renderer and canvas state at that point. -/
structure StepResult where
  err : Option PyErr
  label : AveryLabel
  canvas : Canvas
deriving DecidableEq

/-- One iteration of the loop body shared by `render` and
    `render_iterator`: saveState, translate to `topLeft`, the optional
    debug outline, the content (callback or form), restoreState, then
    `advance`.  A raising callback aborts the body immediately: no
    restoreState is issued and `advance` is not reached. -/
def renderStep (l : AveryLabel) (cv : Canvas) (thing : Thing) : StepResult :=
  let cv := cv.emit CanvasOp.saveState
  let o := l.topLeft l.position
  let cv := cv.emit (CanvasOp.translate o.1 o.2)
  let cv :=
    if l.debug then
      (cv.emit (CanvasOp.setLineWidth (1 / 4))).emit
        (CanvasOp.roundRect 0 0 l.size.1 l.size.2 l.radius)
    else cv
  match thing with
  | Thing.callback f =>
    match f l.size.1 l.size.2 with
    | CbResult.ok ops =>
      let cv := ops.foldl Canvas.emit cv
      let cv := cv.emit CanvasOp.restoreState
      let lc := l.advance cv
      ⟨none, lc.1, lc.2⟩
    | CbResult.raises => ⟨some PyErr.contentError, l, cv⟩
  | Thing.form name =>
    let cv := (cv.emit (CanvasOp.doForm name)).emit CanvasOp.restoreState
    let lc := l.advance cv
    ⟨none, lc.1, lc.2⟩
  | Thing.invalid =>
    let cv := cv.emit CanvasOp.restoreState
    let lc := l.advance cv
    ⟨none, lc.1, lc.2⟩

/-- The `for i in range(count)` loop of `render`; an exception aborts the
    loop and propagates. -/
def renderLoop (thing : Thing) : ℕ → AveryLabel → Canvas → StepResult
  | 0, l, cv => ⟨none, l, cv⟩
  | Nat.succ n, l, cv =>
    let r := renderStep l cv thing
    match r.err with
    | some _ => r
    | none => renderLoop thing n r.label r.canvas

/-- The `AveryLabel.render` method on the repeat-count path: the assert
    on `thing` runs first; only then is the loop entered.  (The
    `isinstance(count, Iterator)` dispatch is modelled by calling
    `render_iterator` directly; extra `*args` are closed over by the
    callback.) -/
def AveryLabel.render (l : AveryLabel) (cv : Canvas) (thing : Thing) (count : ℕ) : StepResult :=
  if thing.valid then renderLoop thing count l cv
  else ⟨some PyErr.assertionError, l, cv⟩

/-- The `AveryLabel.render_iterator` method: one label per item of the
    iterator, the callback receiving the item as its extra argument. -/
def render_iterator {α : Type} (func : ℚ → ℚ → α → CbResult) :
    List α → AveryLabel → Canvas → StepResult
  | [], l, cv => ⟨none, l, cv⟩
  | c :: rest, l, cv =>
    let r := renderStep l cv (Thing.callback (fun w h => func w h c))
    match r.err with
    | some _ => r
    | none => render_iterator func rest r.label r.canvas

/-- Detects the `saveState` operation. -/
def isSaveState : CanvasOp → Bool
  | CanvasOp.saveState => true
  | _ => false

/-- Detects the `restoreState` operation. -/
def isRestoreState : CanvasOp → Bool
  | CanvasOp.restoreState => true
  | _ => false

/-- Number of drawn label units in a list of operations, counted by the
    `saveState` that opens each label's scoped transform. -/
def unitCount (ops : List CanvasOp) : ℕ := ops.countP isSaveState

/-- Net transform-stack depth contributed by a list of operations. -/
def netDepth (ops : List CanvasOp) : ℤ :=
  (ops.countP isSaveState : ℤ) - (ops.countP isRestoreState : ℤ)

/-- Operations issued between an earlier canvas state and a later one. -/
def emittedOps (cv cvLater : Canvas) : List CanvasOp :=
  cvLater.trace.drop cv.trace.length

/-- Content arguments on which the render loop body completes normally
    and that draw no nested `saveState` of their own. -/
def ThingOk : Thing → Prop
  | Thing.callback f => ∀ w h, ∃ ops, f w h = CbResult.ok ops ∧ unitCount ops = 0
  | Thing.form _ => True
  | Thing.invalid => False

/-- Sample renderer used for concrete witnesses (template "avery5163"). -/
def sampleLabel : AveryLabel := AveryLabel.fromInfo avery5163 false

/-- Sample open canvas used for concrete witnesses. -/
def sampleCanvas : Canvas := sampleLabel.openCanvas

/-- The operations the debug-outline branch of the loop body issues. -/
def dbgOps (l : AveryLabel) : List CanvasOp :=
  if l.debug then
    [CanvasOp.setLineWidth (1 / 4), CanvasOp.roundRect 0 0 l.size.1 l.size.2 l.radius]
  else []

/-- A content callback that always raises. -/
def fRaise : ℚ → ℚ → CbResult := fun _ _ => CbResult.raises

/-- The documented usage run: construct the renderer from a catalog
    entry, open the canvas, draw `k` units with `render`, then `close`. -/
def runDrawClose (d : LabelInfo) (b : Bool) (thing : Thing) (k : ℕ) : Canvas :=
  let l0 := AveryLabel.fromInfo d b
  let cv0 := l0.openCanvas
  let r := AveryLabel.render l0 cv0 thing k
  AveryLabel.close r.label r.canvas

theorem renderStep_err_cases (l : AveryLabel) (cv : Canvas) (thing : Thing) :
    (renderStep l cv thing).err = none ∨
      (renderStep l cv thing).err = some PyErr.contentError := by
  cases thing with
  | callback f =>
    cases hf : f l.size.1 l.size.2 with
    | ok ops => left; simp [renderStep, hf]
    | raises => right; simp [renderStep, hf]
  | form name => left; simp [renderStep]
  | invalid => left; simp [renderStep]

theorem foldl_emit_eq (ops : List CanvasOp) (cv : Canvas) :
    ops.foldl Canvas.emit cv =
      { cv with current := cv.current ++ ops, trace := cv.trace ++ ops } := by
  induction ops generalizing cv with
  | nil => simp
  | cons op rest ih => simp [Canvas.emit, ih, List.append_assoc]

theorem renderStep_raises_spec (l : AveryLabel) (cv : Canvas) (f : ℚ → ℚ → CbResult)
    (hf : f l.size.1 l.size.2 = CbResult.raises) :
    renderStep l cv (Thing.callback f) =
      ⟨some PyErr.contentError, l,
       { cv with
          current := cv.current ++
            ([CanvasOp.saveState,
              CanvasOp.translate (l.topLeft l.position).1 (l.topLeft l.position).2] ++ dbgOps l)
          trace := cv.trace ++
            ([CanvasOp.saveState,
              CanvasOp.translate (l.topLeft l.position).1 (l.topLeft l.position).2] ++ dbgOps l) }⟩ := by
  by_cases hd : l.debug <;>
    simp [renderStep, hf, Canvas.emit, dbgOps, hd, List.append_assoc]

theorem renderStep_ok_spec (l : AveryLabel) (cv : Canvas) (f : ℚ → ℚ → CbResult)
    (ops : List CanvasOp) (hf : f l.size.1 l.size.2 = CbResult.ok ops) :
    renderStep l cv (Thing.callback f) =
      (fun block =>
        if l.position + 1 = l.across * l.down then
          (⟨none, { l with position := 0 },
            { cv with
               pages := cv.pages ++ [cv.current ++ block]
               current := []
               trace := cv.trace ++ (block ++ [CanvasOp.showPage]) }⟩ : StepResult)
        else
          ⟨none, { l with position := l.position + 1 },
           { cv with current := cv.current ++ block, trace := cv.trace ++ block }⟩)
      ([CanvasOp.saveState,
        CanvasOp.translate (l.topLeft l.position).1 (l.topLeft l.position).2] ++
        dbgOps l ++ ops ++ [CanvasOp.restoreState]) := by
  by_cases hd : l.debug <;> by_cases hp : l.position + 1 = l.across * l.down <;>
    simp [renderStep, hf, Canvas.emit, Canvas.endPage, AveryLabel.advance, dbgOps, hd, hp,
      foldl_emit_eq, List.append_assoc]

theorem renderStep_form_spec (l : AveryLabel) (cv : Canvas) (name : String) :
    renderStep l cv (Thing.form name) =
      (fun block =>
        if l.position + 1 = l.across * l.down then
          (⟨none, { l with position := 0 },
            { cv with
               pages := cv.pages ++ [cv.current ++ block]
               current := []
               trace := cv.trace ++ (block ++ [CanvasOp.showPage]) }⟩ : StepResult)
        else
          ⟨none, { l with position := l.position + 1 },
           { cv with current := cv.current ++ block, trace := cv.trace ++ block }⟩)
      ([CanvasOp.saveState,
        CanvasOp.translate (l.topLeft l.position).1 (l.topLeft l.position).2] ++
        dbgOps l ++ [CanvasOp.doForm name] ++ [CanvasOp.restoreState]) := by
  by_cases hd : l.debug <;> by_cases hp : l.position + 1 = l.across * l.down <;>
    simp [renderStep, Canvas.emit, Canvas.endPage, AveryLabel.advance, dbgOps, hd, hp,
      List.append_assoc]

theorem emittedOps_of_trace (cv cvLater : Canvas) (X : List CanvasOp)
    (h : cvLater.trace = cv.trace ++ X) : emittedOps cv cvLater = X := by
  simp [emittedOps, h]

theorem netDepth_append (a b : List CanvasOp) :
    netDepth (a ++ b) = netDepth a + netDepth b := by
  simp [netDepth, List.countP_append]
  ring

theorem netDepth_dbgOps (l : AveryLabel) : netDepth (dbgOps l) = 0 := by
  by_cases hd : l.debug <;> simp [dbgOps, hd, netDepth, isSaveState, isRestoreState]

theorem countP_save_dbgOps (l : AveryLabel) : (dbgOps l).countP isSaveState = 0 := by
  by_cases hd : l.debug <;> simp [dbgOps, hd, isSaveState]

theorem countP_restore_dbgOps (l : AveryLabel) :
    (dbgOps l).countP isRestoreState = 0 := by
  by_cases hd : l.debug <;> simp [dbgOps, hd, isRestoreState]

theorem renderStep_invalid_spec (l : AveryLabel) (cv : Canvas) :
    renderStep l cv Thing.invalid =
      (fun block =>
        if l.position + 1 = l.across * l.down then
          (⟨none, { l with position := 0 },
            { cv with
               pages := cv.pages ++ [cv.current ++ block]
               current := []
               trace := cv.trace ++ (block ++ [CanvasOp.showPage]) }⟩ : StepResult)
        else
          ⟨none, { l with position := l.position + 1 },
           { cv with current := cv.current ++ block, trace := cv.trace ++ block }⟩)
      ([CanvasOp.saveState,
        CanvasOp.translate (l.topLeft l.position).1 (l.topLeft l.position).2] ++
        dbgOps l ++ [CanvasOp.restoreState]) := by
  by_cases hd : l.debug <;> by_cases hp : l.position + 1 = l.across * l.down <;>
    simp [renderStep, Canvas.emit, Canvas.endPage, AveryLabel.advance, dbgOps, hd, hp,
      List.append_assoc]

theorem thingOk_valid {t : Thing} (ht : ThingOk t) : t.valid = true := by
  cases t with
  | callback f => rfl
  | form name => rfl
  | invalid => exact ht.elim

theorem render_eq_loop (l : AveryLabel) (cv : Canvas) (thing : Thing)
    (hv : thing.valid = true) (count : ℕ) :
    AveryLabel.render l cv thing count = renderLoop thing count l cv := by
  simp [AveryLabel.render, hv]

theorem runDrawClose_eq (d : LabelInfo) (b : Bool) (thing : Thing) (k : ℕ)
    (hv : thing.valid = true) :
    runDrawClose d b thing k =
      AveryLabel.close
        (renderLoop thing k (AveryLabel.fromInfo d b)
          ((AveryLabel.fromInfo d b).openCanvas)).label
        (renderLoop thing k (AveryLabel.fromInfo d b)
          ((AveryLabel.fromInfo d b).openCanvas)).canvas := by
  simp [runDrawClose, AveryLabel.render, hv]

theorem openCanvas_current (l : AveryLabel) :
    unitCount (l.openCanvas).current = 0 ∧ (l.openCanvas).pages = [] := by
  by_cases hd : l.debug <;>
    simp [AveryLabel.openCanvas, Canvas.emit, hd, unitCount, isSaveState]

theorem renderStep_thingOk (l : AveryLabel) (cv : Canvas) (thing : Thing)
    (ht : ThingOk thing) :
    ∃ block, unitCount block = 1 ∧
      renderStep l cv thing =
        if l.position + 1 = l.across * l.down then
          (⟨none, { l with position := 0 },
            { cv with
               pages := cv.pages ++ [cv.current ++ block]
               current := []
               trace := cv.trace ++ (block ++ [CanvasOp.showPage]) }⟩ : StepResult)
        else
          ⟨none, { l with position := l.position + 1 },
           { cv with current := cv.current ++ block, trace := cv.trace ++ block }⟩ := by
  cases thing with
  | callback f =>
    obtain ⟨ops, hf, h0⟩ := ht l.size.1 l.size.2
    refine ⟨_, ?_, renderStep_ok_spec l cv f ops hf⟩
    simp only [unitCount] at h0 ⊢
    simp [List.countP_append, List.countP_cons, isSaveState, countP_save_dbgOps, h0]
  | form name =>
    refine ⟨_, ?_, renderStep_form_spec l cv name⟩
    simp only [unitCount]
    simp [List.countP_append, List.countP_cons, isSaveState, countP_save_dbgOps]
  | invalid => exact ht.elim

theorem renderLoop_thingOk (thing : Thing) (ht : ThingOk thing) :
    ∀ (k : ℕ) (l : AveryLabel) (cv : Canvas),
      l.position < l.across * l.down →
      unitCount cv.current = l.position →
      (∀ p ∈ cv.pages, unitCount p = l.across * l.down) →
      (renderLoop thing k l cv).err = none ∧
      (renderLoop thing k l cv).label.position =
        (l.position + k) % (l.across * l.down) ∧
      (renderLoop thing k l cv).label.across = l.across ∧
      (renderLoop thing k l cv).label.down = l.down ∧
      (renderLoop thing k l cv).canvas.pages.length =
        cv.pages.length + (l.position + k) / (l.across * l.down) ∧
      (∀ p ∈ (renderLoop thing k l cv).canvas.pages,
        unitCount p = l.across * l.down) ∧
      unitCount (renderLoop thing k l cv).canvas.current =
        (l.position + k) % (l.across * l.down) := by
  intro k
  induction k with
  | zero =>
    intro l cv hpos hcur hpages
    refine ⟨rfl, ?_, rfl, rfl, ?_, hpages, ?_⟩
    · show l.position = (l.position + 0) % (l.across * l.down)
      simp [Nat.mod_eq_of_lt hpos]
    · show cv.pages.length = cv.pages.length + (l.position + 0) / (l.across * l.down)
      simp [Nat.div_eq_of_lt hpos]
    · show unitCount cv.current = (l.position + 0) % (l.across * l.down)
      simp [Nat.mod_eq_of_lt hpos, hcur]
  | succ n ih =>
    intro l cv hpos hcur hpages
    have hcap : 0 < l.across * l.down := Nat.lt_of_le_of_lt (Nat.zero_le _) hpos
    obtain ⟨block, hb, hstep⟩ := renderStep_thingOk l cv thing ht
    by_cases hp : l.position + 1 = l.across * l.down
    · have hstep' : renderStep l cv thing =
          ⟨none, { l with position := 0 },
           { cv with
              pages := cv.pages ++ [cv.current ++ block]
              current := []
              trace := cv.trace ++ (block ++ [CanvasOp.showPage]) }⟩ := by
        rw [hstep, if_pos hp]
      have hloop : renderLoop thing (n + 1) l cv =
          renderLoop thing n { l with position := 0 }
            { cv with
               pages := cv.pages ++ [cv.current ++ block]
               current := []
               trace := cv.trace ++ (block ++ [CanvasOp.showPage]) } := by
        simp only [renderLoop, hstep']
      rw [hloop]
      have hnewpage : unitCount (cv.current ++ block) = l.across * l.down := by
        simp only [unitCount, List.countP_append]
        simp only [unitCount] at hcur hb
        omega
      obtain ⟨h1, h2, h3, h4, h5, h6, h7⟩ := ih { l with position := 0 }
          { cv with
             pages := cv.pages ++ [cv.current ++ block]
             current := []
             trace := cv.trace ++ (block ++ [CanvasOp.showPage]) }
          hcap
          (by simp [unitCount])
          (by
            intro p hmem
            simp only [List.mem_append, List.mem_singleton] at hmem
            rcases hmem with h1 | h1
            · exact hpages p h1
            · subst h1; exact hnewpage)
      have hshift : l.position + (n + 1) = n + l.across * l.down := by omega
      have h2' : (renderLoop thing n { l with position := 0 }
          { cv with
             pages := cv.pages ++ [cv.current ++ block]
             current := []
             trace := cv.trace ++ (block ++ [CanvasOp.showPage]) }).label.position =
          (0 + n) % (l.across * l.down) := h2
      have h5' : (renderLoop thing n { l with position := 0 }
          { cv with
             pages := cv.pages ++ [cv.current ++ block]
             current := []
             trace := cv.trace ++ (block ++ [CanvasOp.showPage]) }).canvas.pages.length =
          (cv.pages ++ [cv.current ++ block]).length + (0 + n) / (l.across * l.down) := h5
      have h7' : unitCount (renderLoop thing n { l with position := 0 }
          { cv with
             pages := cv.pages ++ [cv.current ++ block]
             current := []
             trace := cv.trace ++ (block ++ [CanvasOp.showPage]) }).canvas.current =
          (0 + n) % (l.across * l.down) := h7
      rw [Nat.zero_add] at h2' h5' h7'
      rw [List.length_append, List.length_singleton] at h5'
      refine ⟨h1, ?_, h3, h4, ?_, h6, ?_⟩
      · rw [hshift, Nat.add_mod_right]
        exact h2'
      · rw [hshift, Nat.add_div_right _ hcap, h5']
        omega
      · rw [hshift, Nat.add_mod_right]
        exact h7'
    · have hpos' : l.position + 1 < l.across * l.down := Nat.lt_of_le_of_ne hpos hp
      have hstep' : renderStep l cv thing =
          ⟨none, { l with position := l.position + 1 },
           { cv with current := cv.current ++ block, trace := cv.trace ++ block }⟩ := by
        rw [hstep, if_neg hp]
      have hloop : renderLoop thing (n + 1) l cv =
          renderLoop thing n { l with position := l.position + 1 }
            { cv with current := cv.current ++ block, trace := cv.trace ++ block } := by
        simp only [renderLoop, hstep']
      rw [hloop]
      obtain ⟨h1, h2, h3, h4, h5, h6, h7⟩ := ih { l with position := l.position + 1 }
          { cv with current := cv.current ++ block, trace := cv.trace ++ block }
          hpos'
          (by
            show unitCount (cv.current ++ block) = l.position + 1
            simp only [unitCount, List.countP_append]
            simp only [unitCount] at hcur hb
            omega)
          hpages
      have hshift : l.position + (n + 1) = l.position + 1 + n := by omega
      have h2' : (renderLoop thing n { l with position := l.position + 1 }
          { cv with current := cv.current ++ block, trace := cv.trace ++ block }).label.position =
          (l.position + 1 + n) % (l.across * l.down) := h2
      have h5' : (renderLoop thing n { l with position := l.position + 1 }
          { cv with current := cv.current ++ block, trace := cv.trace ++ block }).canvas.pages.length =
          cv.pages.length + (l.position + 1 + n) / (l.across * l.down) := h5
      have h7' : unitCount (renderLoop thing n { l with position := l.position + 1 }
          { cv with current := cv.current ++ block, trace := cv.trace ++ block }).canvas.current =
          (l.position + 1 + n) % (l.across * l.down) := h7
      refine ⟨h1, ?_, h3, h4, ?_, h6, ?_⟩
      · rw [hshift]; exact h2'
      · rw [hshift]; exact h5'
      · rw [hshift]; exact h7'

theorem run_spec (d : LabelInfo) (b : Bool) (thing : Thing) (ht : ThingOk thing)
    (k : ℕ) (hc : 0 < d.labels_horizontal * d.labels_vertical) :
    (renderLoop thing k (AveryLabel.fromInfo d b)
        ((AveryLabel.fromInfo d b).openCanvas)).err = none ∧
    (renderLoop thing k (AveryLabel.fromInfo d b)
        ((AveryLabel.fromInfo d b).openCanvas)).label.position =
      k % (d.labels_horizontal * d.labels_vertical) ∧
    (renderLoop thing k (AveryLabel.fromInfo d b)
        ((AveryLabel.fromInfo d b).openCanvas)).canvas.pages.length =
      k / (d.labels_horizontal * d.labels_vertical) ∧
    (∀ p ∈ (renderLoop thing k (AveryLabel.fromInfo d b)
        ((AveryLabel.fromInfo d b).openCanvas)).canvas.pages,
      unitCount p = d.labels_horizontal * d.labels_vertical) ∧
    unitCount (renderLoop thing k (AveryLabel.fromInfo d b)
        ((AveryLabel.fromInfo d b).openCanvas)).canvas.current =
      k % (d.labels_horizontal * d.labels_vertical) := by
  obtain ⟨h1, h2, h3, h4, h5, h6, h7⟩ :=
    renderLoop_thingOk thing ht k (AveryLabel.fromInfo d b)
      ((AveryLabel.fromInfo d b).openCanvas)
      (by simpa [AveryLabel.fromInfo] using hc)
      (by simpa [AveryLabel.fromInfo] using
        (openCanvas_current (AveryLabel.fromInfo d b)).1)
      (by
        intro p hmem
        rw [(openCanvas_current _).2] at hmem
        simp at hmem)
  rw [(openCanvas_current _).2] at h5
  refine ⟨h1, ?_, ?_, ?_, ?_⟩
  · simpa [AveryLabel.fromInfo] using h2
  · simpa [AveryLabel.fromInfo] using h5
  · intro p hmem
    simpa [AveryLabel.fromInfo] using h6 p hmem
  · simpa [AveryLabel.fromInfo] using h7

theorem ceil_div_formula (k c : ℕ) (hc : 0 < c) (hk : 0 < k) :
    (k + c - 1) / c = if k % c = 0 then k / c else k / c + 1 := by
  have hmod := Nat.div_add_mod k c
  have hrlt : k % c < c := Nat.mod_lt _ hc
  have hstep : k + c - 1 = (k - 1) + c := by omega
  rw [hstep, Nat.add_div_right _ hc]
  by_cases h : k % c = 0
  · rw [if_pos h]
    obtain ⟨s, hs⟩ : ∃ s, k / c = s + 1 := by
      rcases Nat.eq_zero_or_pos (k / c) with h0 | h0
      · exfalso; rw [h0, Nat.mul_zero] at hmod; omega
      · exact ⟨k / c - 1, by omega⟩
    have hks : c * (s + 1) + k % c = k := by rw [← hs]; exact hmod
    rw [Nat.mul_add, Nat.mul_one] at hks
    have hk1 : k - 1 = c * s + (c - 1) := by omega
    rw [hk1, Nat.mul_add_div hc, Nat.div_eq_of_lt (show c - 1 < c by omega), hs]
  · rw [if_neg h]
    have hk1 : k - 1 = c * (k / c) + (k % c - 1) := by omega
    rw [hk1, Nat.mul_add_div hc,
      Nat.div_eq_of_lt (show k % c - 1 < c by omega)]

/-- C1: under top-down (column-major) scan order, `topLeft` maps slot `i`
    with `(col, row) = divmod(i, rows)` to
    `x = marginLeft + col*(labelWidth + columnGutter)` and
    `y = pageHeight - marginTop - row*rowGutter - (row+1)*labelHeight`;
    in particular the Scenario C template (avery5163) yields `(18, 612)`
    for slot 0 and `(18, 468)` for slot 1. -/
theorem c1_topLeft_formula (d : LabelInfo) (b : Bool) (i : ℕ)
    (hi : i < d.labels_horizontal * d.labels_vertical) :
    (AveryLabel.fromInfo d b).topLeft i =
      (d.margin.1 + ((i / d.labels_vertical : ℕ) : ℚ) *
          (d.label_size.1 + d.gutter_size.1),
       d.pagesize.2 - d.margin.2 -
          ((i % d.labels_vertical : ℕ) : ℚ) * d.gutter_size.2 -
          (((i % d.labels_vertical : ℕ) : ℚ) + 1) * d.label_size.2) ∧
    (AveryLabel.fromInfo avery5163 false).topLeft 0 = (18, 612) ∧
    (AveryLabel.fromInfo avery5163 false).topLeft 1 = (18, 468) :=
  ⟨rfl, by norm_num [AveryLabel.topLeft, AveryLabel.fromInfo, avery5163, LETTER],
   by norm_num [AveryLabel.topLeft, AveryLabel.fromInfo, avery5163, LETTER]⟩

/-- Witness for C1 at the Scenario C template and slot 0. -/
theorem c1_witness :
    (AveryLabel.fromInfo avery5163 false).topLeft 0 = (18, 612) :=
  (c1_topLeft_formula avery5163 false 0 (by decide)).2.1

/-- C3 counterexample: with a raising content callback, the iteration
    pushes the transform state (`saveState`) and exits without a
    matching `restoreState`, refuting restoration on every exit path. -/
theorem c3_counterexample :
    (renderStep sampleLabel sampleCanvas (Thing.callback fRaise)).err =
       some PyErr.contentError ∧
    (emittedOps sampleCanvas
       (renderStep sampleLabel sampleCanvas (Thing.callback fRaise)).canvas).countP
       isSaveState = 1 ∧
    (emittedOps sampleCanvas
       (renderStep sampleLabel sampleCanvas (Thing.callback fRaise)).canvas).countP
       isRestoreState = 0 := by
  have h := renderStep_raises_spec sampleLabel sampleCanvas fRaise rfl
  rw [h]
  refine ⟨rfl, ?_, ?_⟩ <;>
  · rw [emittedOps_of_trace _ _ _ rfl]
    simp [dbgOps, sampleLabel, AveryLabel.fromInfo, isSaveState, isRestoreState]

/-- C3 amended: the transform state pushed at the start of an iteration
    is restored on every normally-completing exit path (for a callback
    whose own drawing is balanced, and for a form), but when the content
    callback raises, the exception propagates and the pushed state is
    NOT restored: the iteration leaks one level of saved state. -/
theorem c3_scoped_restore (l : AveryLabel) (cv : Canvas) (f : ℚ → ℚ → CbResult) :
    (∀ ops, f l.size.1 l.size.2 = CbResult.ok ops → netDepth ops = 0 →
      netDepth (emittedOps cv (renderStep l cv (Thing.callback f)).canvas) = 0) ∧
    (∀ name, netDepth (emittedOps cv (renderStep l cv (Thing.form name)).canvas) = 0) ∧
    (f l.size.1 l.size.2 = CbResult.raises →
      (renderStep l cv (Thing.callback f)).err = some PyErr.contentError ∧
      netDepth (emittedOps cv (renderStep l cv (Thing.callback f)).canvas) = 1) := by
  refine ⟨fun ops hf h0 => ?_, fun name => ?_, fun hf => ?_⟩
  · rw [renderStep_ok_spec l cv f ops hf]
    simp only [netDepth] at h0
    by_cases hp : l.position + 1 = l.across * l.down <;>
    · simp only [hp, if_true, if_false, reduceIte]
      rw [emittedOps_of_trace _ _ _ rfl]
      simp [netDepth, List.countP_cons, List.countP_append, isSaveState, isRestoreState,
        countP_save_dbgOps, countP_restore_dbgOps]
      omega
  · rw [renderStep_form_spec l cv name]
    by_cases hp : l.position + 1 = l.across * l.down <;>
    · simp only [hp, if_true, if_false, reduceIte]
      rw [emittedOps_of_trace _ _ _ rfl]
      simp [netDepth, List.countP_cons, List.countP_append, isSaveState, isRestoreState,
        countP_save_dbgOps, countP_restore_dbgOps]
  · rw [renderStep_raises_spec l cv f hf]
    refine ⟨rfl, ?_⟩
    rw [emittedOps_of_trace _ _ _ rfl]
    simp [netDepth, List.countP_cons, List.countP_append, isSaveState, isRestoreState,
      countP_save_dbgOps, countP_restore_dbgOps]

/-- Witness for C3 amended, at a concrete ok callback and the raising
    callback on the sample renderer. -/
theorem c3_witness :
    netDepth (emittedOps sampleCanvas
      (renderStep sampleLabel sampleCanvas
        (Thing.callback (fun _ _ => CbResult.ok [CanvasOp.draw 0]))).canvas) = 0 ∧
    netDepth (emittedOps sampleCanvas
      (renderStep sampleLabel sampleCanvas (Thing.callback fRaise)).canvas) = 1 :=
  ⟨(c3_scoped_restore sampleLabel sampleCanvas
      (fun _ _ => CbResult.ok [CanvasOp.draw 0])).1 [CanvasOp.draw 0] rfl (by decide),
   ((c3_scoped_restore sampleLabel sampleCanvas fRaise).2.2 rfl).2⟩

/-- C4: when the content callback raises during an iteration, the
    exception propagates (also through the surrounding loop), the cursor
    is exactly as before the call (not incremented), and no page break
    occurred. -/
theorem c4_cursor_on_raise (l : AveryLabel) (cv : Canvas) (f : ℚ → ℚ → CbResult)
    (hf : f l.size.1 l.size.2 = CbResult.raises) :
    (renderStep l cv (Thing.callback f)).err = some PyErr.contentError ∧
    (renderStep l cv (Thing.callback f)).label = l ∧
    (renderStep l cv (Thing.callback f)).canvas.pages = cv.pages ∧
    ∀ n, renderLoop (Thing.callback f) (n + 1) l cv =
      renderStep l cv (Thing.callback f) := by
  have h := renderStep_raises_spec l cv f hf
  refine ⟨by rw [h], by rw [h], by rw [h], fun n => ?_⟩
  simp only [renderLoop, h]

/-- Witness for C4 at the raising callback on the sample renderer. -/
theorem c4_witness :
    (renderStep sampleLabel sampleCanvas (Thing.callback fRaise)).label = sampleLabel ∧
    (renderStep sampleLabel sampleCanvas (Thing.callback fRaise)).canvas.pages =
      sampleCanvas.pages ∧
    renderLoop (Thing.callback fRaise) 3 sampleLabel sampleCanvas =
      renderStep sampleLabel sampleCanvas (Thing.callback fRaise) :=
  ⟨(c4_cursor_on_raise sampleLabel sampleCanvas fRaise rfl).2.1,
   (c4_cursor_on_raise sampleLabel sampleCanvas fRaise rfl).2.2.1,
   (c4_cursor_on_raise sampleLabel sampleCanvas fRaise rfl).2.2.2 2⟩

/-- C9: constructing the renderer from an unknown template name fails
    with the lookup (KeyError) error before any output exists, while a
    known name yields the assembled renderer state, with the output file
    only ever touched by the separate `openCanvas` step. -/
theorem c9_lookup_failfast (name : String) (b : Bool) :
    (labelInfo name = none → mkAveryLabel name b = Except.error name) ∧
    ∀ d, labelInfo name = some d →
      mkAveryLabel name b = Except.ok (AveryLabel.fromInfo d b) := by
  constructor
  · intro h; simp [mkAveryLabel, h]
  · intro d h; simp [mkAveryLabel, h]

/-- Witness for C9: a missing name errs, a present name succeeds. -/
theorem c9_witness :
    mkAveryLabel "avery9999" false = Except.error "avery9999" ∧
    mkAveryLabel "avery5163" false = Except.ok (AveryLabel.fromInfo avery5163 false) :=
  ⟨(c9_lookup_failfast "avery9999" false).1 (by decide),
   (c9_lookup_failfast "avery5163" false).2 avery5163 (by decide)⟩

/-- C10: `render` with a content argument that is neither callable nor a
    string raises AssertionError at once, leaving the cursor and the
    sink untouched; with a valid content it proceeds into the loop, and
    the loop itself never raises AssertionError. -/
theorem c10_render_assert (l : AveryLabel) (cv : Canvas) (count : ℕ) :
    AveryLabel.render l cv Thing.invalid count =
      ⟨some PyErr.assertionError, l, cv⟩ ∧
    (∀ thing : Thing, thing.valid = true →
      AveryLabel.render l cv thing count = renderLoop thing count l cv) ∧
    ∀ thing : Thing, (renderLoop thing count l cv).err ≠ some PyErr.assertionError := by
  refine ⟨rfl, fun thing h => by simp [AveryLabel.render, h], fun thing => ?_⟩
  induction count generalizing l cv with
  | zero => simp [renderLoop]
  | succ n ih =>
    rcases renderStep_err_cases l cv thing with h | h
    · simp only [renderLoop, h]
      exact ih _ _
    · simp only [renderLoop, h]
      simp [h]

/-- Witness for C10: concrete invalid content is rejected with state
    unchanged, and a concrete form content proceeds into the loop. -/
theorem c10_witness :
    AveryLabel.render sampleLabel sampleCanvas Thing.invalid 4 =
      ⟨some PyErr.assertionError, sampleLabel, sampleCanvas⟩ ∧
    AveryLabel.render sampleLabel sampleCanvas (Thing.form "asn") 2 =
      renderLoop (Thing.form "asn") 2 sampleLabel sampleCanvas :=
  ⟨(c10_render_assert sampleLabel sampleCanvas 4).1,
   (c10_render_assert sampleLabel sampleCanvas 2).2.1 (Thing.form "asn") rfl⟩

/-- C2: drawing `k > 0` units (content that completes normally) and then
    closing finalizes exactly `ceil(k / c)` pages on the sink, where
    `c = columns*rows` is the grid capacity, and the last finalized page
    holds `k mod c` units, or `c` units when `c` divides `k`. -/
theorem c2_pagination (d : LabelInfo) (b : Bool) (thing : Thing) (ht : ThingOk thing)
    (k : ℕ) (hk : 0 < k) (hc : 0 < d.labels_horizontal * d.labels_vertical) :
    (runDrawClose d b thing k).pages.length =
      (k + d.labels_horizontal * d.labels_vertical - 1) /
        (d.labels_horizontal * d.labels_vertical) ∧
    ∃ seg, (runDrawClose d b thing k).pages.getLast? = some seg ∧
      unitCount seg =
        (if k % (d.labels_horizontal * d.labels_vertical) = 0 then
          d.labels_horizontal * d.labels_vertical
        else k % (d.labels_horizontal * d.labels_vertical)) := by
  rw [runDrawClose_eq d b thing k (thingOk_valid ht),
    ceil_div_formula k _ hc hk]
  obtain ⟨h1, h2, h3, h4, h5⟩ := run_spec d b thing ht k hc
  by_cases hmod : k % (d.labels_horizontal * d.labels_vertical) = 0
  · have hcond : ¬((renderLoop thing k (AveryLabel.fromInfo d b)
        ((AveryLabel.fromInfo d b).openCanvas)).label.position ≠ 0) := by
      rw [h2, hmod]; simp
    simp only [AveryLabel.close, if_neg hcond, if_pos hmod]
    have hqpos : 0 < k / (d.labels_horizontal * d.labels_vertical) := by
      rcases Nat.eq_zero_or_pos (k / (d.labels_horizontal * d.labels_vertical)) with
        h0 | h0
      · exfalso
        have := Nat.div_add_mod k (d.labels_horizontal * d.labels_vertical)
        rw [h0, Nat.mul_zero, hmod] at this
        omega
      · exact h0
    have hne : (renderLoop thing k (AveryLabel.fromInfo d b)
        ((AveryLabel.fromInfo d b).openCanvas)).canvas.pages ≠ [] := by
      intro he
      rw [he] at h3
      simp at h3
      omega
    constructor
    · simpa using h3
    · refine ⟨(renderLoop thing k (AveryLabel.fromInfo d b)
        ((AveryLabel.fromInfo d b).openCanvas)).canvas.pages.getLast hne, ?_, ?_⟩
      · show (renderLoop thing k (AveryLabel.fromInfo d b)
          ((AveryLabel.fromInfo d b).openCanvas)).canvas.pages.getLast? = _
        exact List.getLast?_eq_getLast_of_ne_nil hne
      · exact h4 _ (List.getLast_mem hne)
  · have hcond : (renderLoop thing k (AveryLabel.fromInfo d b)
        ((AveryLabel.fromInfo d b).openCanvas)).label.position ≠ 0 := by
      rw [h2]; exact hmod
    simp only [AveryLabel.close, if_pos hcond, if_neg hmod]
    constructor
    · show ((renderLoop thing k (AveryLabel.fromInfo d b)
        ((AveryLabel.fromInfo d b).openCanvas)).canvas.endPage).pages.length = _
      simp only [Canvas.endPage, List.length_append, List.length_singleton]
      rw [h3]
    · refine ⟨(renderLoop thing k (AveryLabel.fromInfo d b)
        ((AveryLabel.fromInfo d b).openCanvas)).canvas.current, ?_, h5⟩
      show ((renderLoop thing k (AveryLabel.fromInfo d b)
        ((AveryLabel.fromInfo d b).openCanvas)).canvas.endPage).pages.getLast? = _
      simp only [Canvas.endPage]
      exact List.getLast?_concat _

/-- Witness for C2: three units of form content on the capacity-10
    avery5163 grid. -/
theorem c2_witness :
    (0 : ℕ) < 3 ∧ 0 < avery5163.labels_horizontal * avery5163.labels_vertical ∧
    (runDrawClose avery5163 false (Thing.form "unit") 3).pages.length =
      (3 + avery5163.labels_horizontal * avery5163.labels_vertical - 1) /
        (avery5163.labels_horizontal * avery5163.labels_vertical) :=
  ⟨by decide, by decide,
   (c2_pagination avery5163 false (Thing.form "unit") trivial 3
      (by decide) (by decide)).1⟩

/-- C5: drawing zero units then closing issues no page-end operation on
    the sink (the finalized-page list stays empty and the trace is
    untouched), and drawing exactly `columns*rows` units finalizes
    exactly one page with `close` adding no second blank page. -/
theorem c5_pagination_edges (d : LabelInfo) (b : Bool) (thing : Thing)
    (ht : ThingOk thing) (hc : 0 < d.labels_horizontal * d.labels_vertical) :
    (runDrawClose d b thing 0).pages = [] ∧
    (runDrawClose d b thing 0).trace = ((AveryLabel.fromInfo d b).openCanvas).trace ∧
    (runDrawClose d b thing
        (d.labels_horizontal * d.labels_vertical)).pages.length = 1 ∧
    (runDrawClose d b thing (d.labels_horizontal * d.labels_vertical)).pages =
      (AveryLabel.render (AveryLabel.fromInfo d b)
        ((AveryLabel.fromInfo d b).openCanvas) thing
        (d.labels_horizontal * d.labels_vertical)).canvas.pages := by
  have hv := thingOk_valid ht
  have hzero : runDrawClose d b thing 0 =
      AveryLabel.close (AveryLabel.fromInfo d b)
        ((AveryLabel.fromInfo d b).openCanvas) := by
    rw [runDrawClose_eq d b thing 0 hv]; rfl
  have hpos0 : ¬((AveryLabel.fromInfo d b).position ≠ 0) := by
    simp [AveryLabel.fromInfo]
  obtain ⟨h1, h2, h3, h4, h5⟩ :=
    run_spec d b thing ht (d.labels_horizontal * d.labels_vertical) hc
  have hcond : ¬((renderLoop thing (d.labels_horizontal * d.labels_vertical)
      (AveryLabel.fromInfo d b)
      ((AveryLabel.fromInfo d b).openCanvas)).label.position ≠ 0) := by
    rw [h2, Nat.mod_self]; simp
  refine ⟨?_, ?_, ?_, ?_⟩
  · rw [hzero]
    simp only [AveryLabel.close, if_neg hpos0]
    exact (openCanvas_current _).2
  · rw [hzero]
    simp only [AveryLabel.close, if_neg hpos0]
  · rw [runDrawClose_eq d b thing _ hv]
    simp only [AveryLabel.close, if_neg hcond]
    rw [h3, Nat.div_self hc]
  · rw [runDrawClose_eq d b thing _ hv, render_eq_loop _ _ _ hv]
    simp only [AveryLabel.close, if_neg hcond]

/-- Witness for C5 at the avery5163 template with form content. -/
theorem c5_witness :
    (runDrawClose avery5163 false (Thing.form "unit") 0).pages = [] ∧
    (runDrawClose avery5163 false (Thing.form "unit")
        (avery5163.labels_horizontal * avery5163.labels_vertical)).pages.length = 1 :=
  ⟨(c5_pagination_edges avery5163 false (Thing.form "unit") trivial (by decide)).1,
   (c5_pagination_edges avery5163 false (Thing.form "unit") trivial (by decide)).2.2.1⟩

/-- C8: the cursor starts at 0 and, for every draw step from a state
    with the cursor in range, stays in `[0, columns*rows)`; on a
    successful step it increments, resetting to 0 exactly when the
    increment reaches the capacity, and on a raising step it is
    unchanged. -/
theorem c8_cursor_invariant (d : LabelInfo) (b : Bool)
    (hc : 0 < d.labels_horizontal * d.labels_vertical) :
    ((AveryLabel.fromInfo d b).position = 0 ∧
     (AveryLabel.fromInfo d b).position <
       d.labels_horizontal * d.labels_vertical) ∧
    ∀ (l : AveryLabel) (cv : Canvas) (thing : Thing),
      l.position < l.across * l.down →
      (renderStep l cv thing).label.position < l.across * l.down ∧
      (renderStep l cv thing).label.across = l.across ∧
      (renderStep l cv thing).label.down = l.down ∧
      ((renderStep l cv thing).err = none →
        (renderStep l cv thing).label.position =
          (if l.position + 1 = l.across * l.down then 0 else l.position + 1)) ∧
      ((renderStep l cv thing).err ≠ none →
        (renderStep l cv thing).label.position = l.position) := by
  refine ⟨⟨rfl, hc⟩, fun l cv thing hpos => ?_⟩
  have hcap : 0 < l.across * l.down := Nat.lt_of_le_of_lt (Nat.zero_le _) hpos
  cases thing with
  | callback f =>
    cases hf : f l.size.1 l.size.2 with
    | ok ops =>
      rw [renderStep_ok_spec l cv f ops hf]
      by_cases hp : l.position + 1 = l.across * l.down
      · simp only [if_pos hp]
        refine ⟨hcap, ?_, ?_, ?_, ?_⟩ <;> simp
      · simp only [if_neg hp]
        refine ⟨Nat.lt_of_le_of_ne hpos hp, ?_, ?_, ?_, ?_⟩ <;> simp
    | raises =>
      rw [renderStep_raises_spec l cv f hf]
      refine ⟨hpos, ?_, ?_, ?_, ?_⟩ <;> simp
  | form name =>
    rw [renderStep_form_spec l cv name]
    by_cases hp : l.position + 1 = l.across * l.down
    · simp only [if_pos hp]
      refine ⟨hcap, ?_, ?_, ?_, ?_⟩ <;> simp
    · simp only [if_neg hp]
      refine ⟨Nat.lt_of_le_of_ne hpos hp, ?_, ?_, ?_, ?_⟩ <;> simp
  | invalid =>
    rw [renderStep_invalid_spec l cv]
    by_cases hp : l.position + 1 = l.across * l.down
    · simp only [if_pos hp]
      refine ⟨hcap, ?_, ?_, ?_, ?_⟩ <;> simp
    · simp only [if_neg hp]
      refine ⟨Nat.lt_of_le_of_ne hpos hp, ?_, ?_, ?_, ?_⟩ <;> simp

/-- Witness for C8: the sample renderer starts at slot 0 and a concrete
    draw step keeps the cursor inside the grid. -/
theorem c8_witness :
    (AveryLabel.fromInfo avery5163 false).position = 0 ∧
    (renderStep sampleLabel sampleCanvas (Thing.form "asn")).label.position <
      sampleLabel.across * sampleLabel.down :=
  ⟨(c8_cursor_invariant avery5163 false (by decide)).1.1,
   ((c8_cursor_invariant avery5163 false (by decide)).2 sampleLabel sampleCanvas
      (Thing.form "asn") (by decide)).1⟩

/-- C6: with positive label dimensions and non-negative gutters, under
    top-down scan order `topLeft` is strictly increasing in x across
    adjacent columns with spacing exactly `labelWidth + columnGutter`
    (same row, so same y), and strictly decreasing in y down adjacent
    rows with spacing exactly `labelHeight + rowGutter` (same column, so
    same x). -/
theorem c6_spacing (d : LabelInfo) (b : Bool)
    (hw : 0 < d.label_size.1) (hh : 0 < d.label_size.2)
    (hgx : 0 ≤ d.gutter_size.1) (hgy : 0 ≤ d.gutter_size.2)
    (hv : 0 < d.labels_vertical) (i : ℕ) :
    (i + d.labels_vertical < d.labels_horizontal * d.labels_vertical →
      ((AveryLabel.fromInfo d b).topLeft (i + d.labels_vertical)).1 =
        ((AveryLabel.fromInfo d b).topLeft i).1 +
          (d.label_size.1 + d.gutter_size.1) ∧
      ((AveryLabel.fromInfo d b).topLeft i).1 <
        ((AveryLabel.fromInfo d b).topLeft (i + d.labels_vertical)).1 ∧
      ((AveryLabel.fromInfo d b).topLeft (i + d.labels_vertical)).2 =
        ((AveryLabel.fromInfo d b).topLeft i).2) ∧
    (i % d.labels_vertical + 1 < d.labels_vertical →
      i + 1 < d.labels_horizontal * d.labels_vertical →
      ((AveryLabel.fromInfo d b).topLeft (i + 1)).2 =
        ((AveryLabel.fromInfo d b).topLeft i).2 -
          (d.label_size.2 + d.gutter_size.2) ∧
      ((AveryLabel.fromInfo d b).topLeft (i + 1)).2 <
        ((AveryLabel.fromInfo d b).topLeft i).2 ∧
      ((AveryLabel.fromInfo d b).topLeft (i + 1)).1 =
        ((AveryLabel.fromInfo d b).topLeft i).1) := by
  have hform : ∀ j : ℕ, (AveryLabel.fromInfo d b).topLeft j =
      (d.margin.1 + ((j / d.labels_vertical : ℕ) : ℚ) *
          (d.label_size.1 + d.gutter_size.1),
       d.pagesize.2 - d.margin.2 -
          ((j % d.labels_vertical : ℕ) : ℚ) * d.gutter_size.2 -
          (((j % d.labels_vertical : ℕ) : ℚ) + 1) * d.label_size.2) :=
    fun j => rfl
  have hcolpos : (0 : ℚ) < d.label_size.1 + d.gutter_size.1 := by linarith
  have hrowpos : (0 : ℚ) < d.label_size.2 + d.gutter_size.2 := by linarith
  constructor
  · intro hcol
    have hdiv : (i + d.labels_vertical) / d.labels_vertical =
        i / d.labels_vertical + 1 := Nat.add_div_right i hv
    have hmodeq : (i + d.labels_vertical) % d.labels_vertical =
        i % d.labels_vertical := Nat.add_mod_right i d.labels_vertical
    simp only [hform, hdiv, hmodeq]
    refine ⟨?_, ?_, trivial⟩
    · push_cast
      ring
    · push_cast
      nlinarith [hcolpos]
  · intro hrow hvalid
    have e1 : i + 1 = d.labels_vertical * (i / d.labels_vertical) +
        (i % d.labels_vertical + 1) := by
      have hmod := Nat.div_add_mod i d.labels_vertical
      omega
    have hdiv : (i + 1) / d.labels_vertical = i / d.labels_vertical := by
      rw [e1, Nat.mul_add_div hv, Nat.div_eq_of_lt hrow]
      omega
    have hmm : (i + 1) % d.labels_vertical = i % d.labels_vertical + 1 := by
      rw [e1, Nat.mul_add_mod, Nat.mod_eq_of_lt hrow]
    simp only [hform, hdiv, hmm]
    refine ⟨?_, ?_, trivial⟩
    · push_cast
      ring
    · push_cast
      nlinarith [hrowpos]

/-- Witness for C6 at the avery5163 template and slot 0: moving one
    column to the right shifts x by exactly labelWidth + columnGutter. -/
theorem c6_witness :
    ((AveryLabel.fromInfo avery5163 false).topLeft
        (0 + avery5163.labels_vertical)).1 =
      ((AveryLabel.fromInfo avery5163 false).topLeft 0).1 +
        (avery5163.label_size.1 + avery5163.gutter_size.1) :=
  (((c6_spacing avery5163 false (by norm_num [avery5163])
      (by norm_num [avery5163]) (by norm_num [avery5163])
      (by norm_num [avery5163]) (by norm_num [avery5163]) 0).1)
    (by norm_num [avery5163])).1

/-- C7: over the full index range `[0, columns*rows)` the set of origins
    computed by `topLeft` is the same under column-major (top-down) scan
    order as under row-major order (the `topDown := false` override);
    only the index-to-origin mapping differs, top-down decomposing the
    index by `divmod(i, rows)` and row-major by `divmod(i, columns)`. -/
theorem c7_scan_order_origins (d : LabelInfo) (b : Bool)
    (hh : 0 < d.labels_horizontal) (hv : 0 < d.labels_vertical) :
    Finset.image (fun i => (AveryLabel.fromInfo d b).topLeft i)
        (Finset.range (d.labels_horizontal * d.labels_vertical)) =
      Finset.image
        (fun i => ((AveryLabel.fromInfo d b).setTopDown false).topLeft i)
        (Finset.range (d.labels_horizontal * d.labels_vertical)) := by
  have hformTD : ∀ j : ℕ, (AveryLabel.fromInfo d b).topLeft j =
      (d.margin.1 + ((j / d.labels_vertical : ℕ) : ℚ) *
          (d.label_size.1 + d.gutter_size.1),
       d.pagesize.2 - d.margin.2 -
          ((j % d.labels_vertical : ℕ) : ℚ) * d.gutter_size.2 -
          (((j % d.labels_vertical : ℕ) : ℚ) + 1) * d.label_size.2) :=
    fun j => rfl
  have hformRM : ∀ j : ℕ, ((AveryLabel.fromInfo d b).setTopDown false).topLeft j =
      (d.margin.1 + ((j % d.labels_horizontal : ℕ) : ℚ) *
          (d.label_size.1 + d.gutter_size.1),
       d.pagesize.2 - d.margin.2 -
          ((j / d.labels_horizontal : ℕ) : ℚ) * d.gutter_size.2 -
          (((j / d.labels_horizontal : ℕ) : ℚ) + 1) * d.label_size.2) :=
    fun j => rfl
  ext p
  simp only [Finset.mem_image, Finset.mem_range]
  constructor
  · rintro ⟨i, hi, rfl⟩
    have hcol : i / d.labels_vertical < d.labels_horizontal :=
      (Nat.div_lt_iff_lt_mul hv).mpr hi
    have hrow : i % d.labels_vertical < d.labels_vertical := Nat.mod_lt _ hv
    refine ⟨d.labels_horizontal * (i % d.labels_vertical) + i / d.labels_vertical,
      ?_, ?_⟩
    · have h1 : d.labels_horizontal * (i % d.labels_vertical) + i / d.labels_vertical <
          d.labels_horizontal * (i % d.labels_vertical) + d.labels_horizontal :=
        Nat.add_lt_add_left hcol _
      have h2 : d.labels_horizontal * (i % d.labels_vertical) + d.labels_horizontal =
          d.labels_horizontal * (i % d.labels_vertical + 1) :=
        (Nat.mul_succ _ _).symm
      have h3 : d.labels_horizontal * (i % d.labels_vertical + 1) ≤
          d.labels_horizontal * d.labels_vertical :=
        Nat.mul_le_mul_left _ hrow
      omega
    · have hjm : (d.labels_horizontal * (i % d.labels_vertical) +
          i / d.labels_vertical) % d.labels_horizontal = i / d.labels_vertical := by
        rw [Nat.mul_add_mod, Nat.mod_eq_of_lt hcol]
      have hjd : (d.labels_horizontal * (i % d.labels_vertical) +
          i / d.labels_vertical) / d.labels_horizontal = i % d.labels_vertical := by
        rw [Nat.mul_add_div hh, Nat.div_eq_of_lt hcol]
        omega
      rw [hformRM, hformTD, hjm, hjd]
  · rintro ⟨j, hj, rfl⟩
    have hcol : j % d.labels_horizontal < d.labels_horizontal := Nat.mod_lt _ hh
    have hrow : j / d.labels_horizontal < d.labels_vertical := by
      refine (Nat.div_lt_iff_lt_mul hh).mpr ?_
      rw [Nat.mul_comm]
      exact hj
    refine ⟨d.labels_vertical * (j % d.labels_horizontal) + j / d.labels_horizontal,
      ?_, ?_⟩
    · have h1 : d.labels_vertical * (j % d.labels_horizontal) + j / d.labels_horizontal <
          d.labels_vertical * (j % d.labels_horizontal) + d.labels_vertical :=
        Nat.add_lt_add_left hrow _
      have h2 : d.labels_vertical * (j % d.labels_horizontal) + d.labels_vertical =
          d.labels_vertical * (j % d.labels_horizontal + 1) :=
        (Nat.mul_succ _ _).symm
      have h3 : d.labels_vertical * (j % d.labels_horizontal + 1) ≤
          d.labels_vertical * d.labels_horizontal :=
        Nat.mul_le_mul_left _ hcol
      have h4 : d.labels_vertical * d.labels_horizontal =
          d.labels_horizontal * d.labels_vertical := Nat.mul_comm _ _
      omega
    · have him : (d.labels_vertical * (j % d.labels_horizontal) +
          j / d.labels_horizontal) % d.labels_vertical = j / d.labels_horizontal := by
        rw [Nat.mul_add_mod, Nat.mod_eq_of_lt hrow]
      have hid : (d.labels_vertical * (j % d.labels_horizontal) +
          j / d.labels_horizontal) / d.labels_vertical = j % d.labels_horizontal := by
        rw [Nat.mul_add_div hv, Nat.div_eq_of_lt hrow]
        omega
      rw [hformRM, hformTD, him, hid]

/-- Witness for C7 at the avery5163 template. -/
theorem c7_witness :
    0 < avery5163.labels_horizontal ∧ 0 < avery5163.labels_vertical ∧
    Finset.image (fun i => (AveryLabel.fromInfo avery5163 false).topLeft i)
        (Finset.range (avery5163.labels_horizontal * avery5163.labels_vertical)) =
      Finset.image
        (fun i => ((AveryLabel.fromInfo avery5163 false).setTopDown false).topLeft i)
        (Finset.range (avery5163.labels_horizontal * avery5163.labels_vertical)) :=
  ⟨by decide, by decide, c7_scan_order_origins avery5163 false (by decide) (by decide)⟩

end AveryLabels
